import Mathlib

/-!
Shallow embedding of `src/Diagram.js` (the clever-diagram widget).

The widget is a glue layer between an external layout engine (ELK) and the
DOM/d3. We embed its observable state as the structure `Diagram` below:
which elements are attached under the mount point, the rendered node/edge
visuals with the style values and CSS classes the code toggles on them,
the stored dataset, and the interaction state (selection, dragging flag,
recorded mouse-down bounding box). Each method of the `Diagram` class
becomes a pure state-transition function; the asynchronous layout result is
passed as an explicit parameter (the engine is an opaque external system),
and events fired through the observable are recorded in an append-only log.
Runtime geometry supplied by the browser (`getBoundingClientRect`) is also
passed as a parameter. Thrown JS exceptions become `Except.error` values of
an explicit error type.
-/

namespace CleverDiagram

/-- A diagram node as supplied to `setData`: identified by `name`, with an
optional `group` (key into the groupColors option) and optional `icon`. -/
structure Node where
  name : String
  group : Option String := none
  icon : Option String := none
deriving Repr, DecidableEq

/-- A diagram edge: `start` and `end` are node names; `type` is a plain string
(the source only ever compares it against the literal "arrow"). -/
structure Edge where
  start : String
  «end» : String
  type : String
deriving Repr, DecidableEq

/-- Root-level options of the ELK request, built by `_getRootProperties`. -/
structure RootProperties where
  algorithm : String
  direction : String
deriving Repr, DecidableEq

/-- One child of the ELK request graph (a node with fixed size). -/
structure ElkChild where
  id : String
  width : Int
  height : Int
deriving Repr, DecidableEq

/-- One edge descriptor of the ELK request graph. -/
structure ElkEdge where
  id : String
  sources : List String
  targets : List String
deriving Repr, DecidableEq

/-- The ELK request graph built by `_getElkGraph`. -/
structure ElkGraph where
  id : String
  properties : RootProperties
  children : List ElkChild
  edges : List ElkEdge
deriving Repr, DecidableEq

/-- `_getRootProperties()`: static layout options. -/
def _getRootProperties : RootProperties :=
  { algorithm := "layered", direction := "RIGHT" }

/-- A positioned child in the layout engine's response. -/
structure LayoutChild where
  x : Int
  y : Int
  width : Int
  height : Int
deriving Repr, DecidableEq

/-- A 2D point of a routed edge. Coordinates are modelled as integers; the
claims under verification only move these values around unchanged. -/
structure Point where
  x : Int
  y : Int
deriving Repr, DecidableEq

/-- One section of a routed edge in the layout response. `startPoint` and
`endPoint` may be absent (the source guards `d.startPoint && d.endPoint`);
`bendPoints` defaults to empty (the source writes `d.bendPoints || []`). -/
structure ElkSection where
  startPoint : Option Point := none
  endPoint : Option Point := none
  bendPoints : List Point := []
deriving Repr, DecidableEq

/-- One routed edge in the layout response. -/
structure LayoutEdge where
  sections : List ElkSection
deriving Repr, DecidableEq

/-- The layout engine's asynchronous response, positionally aligned with the
request: `children` in node order, `edges` in edge order. -/
structure Layout where
  children : List LayoutChild
  edges : List LayoutEdge
deriving Repr, DecidableEq

/-- A rendered node visual: the `div` appended under the container div by
`_renderNode`, carrying the inline style values taken from the layout child,
the computed background color, and the two CSS classes that
`selectNode` / `highlightNode` toggle. -/
structure NodeVisual where
  id : String
  top : Int
  left : Int
  width : Int
  height : Int
  backgroundColor : String
  nodeSelected : Bool := false
  nodeHighlighted : Bool := false
deriving Repr, DecidableEq

/-- A rendered edge visual: the `path` element appended to the svg group by
`_renderEdges`, with its path data string and whether a `marker-end`
(arrowhead) attribute was set on it. -/
structure EdgeVisual where
  d : String
  markerEnd : Bool
deriving Repr, DecidableEq

/-- An event fired through the observable to the embedder. -/
inductive Event where
  | nodeClick (name : String)
  | nodeHighlight (name : String) (highlighted : Bool)
deriving Repr, DecidableEq

/-- The part of a DOM bounding box the source compares (`top` and `left` of
`getBoundingClientRect`). -/
structure Rect where
  top : Int
  left : Int
deriving Repr, DecidableEq

/-- The arguments of `setData`: the source reads `data.nodes || []` and
`data.edges || []`, so both fields may be absent. -/
structure DiagramData where
  nodes : Option (List Node) := none
  edges : Option (List Edge) := none
deriving Repr, DecidableEq

/-- Errors thrown by the widget. `notRendered` stands for the thrown string
"Diagram is not rendered"; `nodeDoesNotExist name` stands for the thrown
string "Node <name> doesn't exist or graph hasn't been rendered yet". -/
inductive DiagramError where
  | notRendered
  | nodeDoesNotExist (name : String)
deriving Repr, DecidableEq

/-- The observable state of one `Diagram` instance together with the DOM it
owns. Mount flags record which elements the widget has attached and not yet
removed: `svgMounted` is the svg element appended under the mount point by
`render`, `groupMounted` the `g` inside it, `markerMounted` the arrowhead
marker definition with DOM id "end" inside the group, and `elMounted` the
container div appended under the mount point. `container` models whether
`this._container` is non-null (set by `render`). Node visuals are the
children of the container div and edge visuals the paths inside the group,
each in document order. `firedEvents` is the log of events delivered through
the observable; `observableAlive` models whether the observable's
handler registry is still intact (cleared by `destroy`). -/
structure Diagram where
  groupColors : List (String × String) := []
  container : Bool := false
  svgMounted : Bool := false
  groupMounted : Bool := false
  markerMounted : Bool := false
  markerSelected : Bool := false
  markerHighlighted : Bool := false
  elMounted : Bool := false
  nodes : List Node := []
  edges : List Edge := []
  nodeVisuals : List NodeVisual := []
  edgeVisuals : List EdgeVisual := []
  elWidth : Option Int := none
  elHeight : Option Int := none
  svgWidth : Option Int := none
  svgHeight : Option Int := none
  selectedNodeName : Option String := none
  dragging : Bool := false
  mouseDownBB : Option Rect := none
  observableAlive : Bool := true
  firedEvents : List Event := []
deriving Repr, DecidableEq

/-- An element of the page that `document.getElementById` or a d3 id-selector
can resolve: either the arrowhead marker (whose DOM id is the literal "end",
set in `render`) or one of the rendered node divs (whose DOM id is the node
name, set in `_renderNode`). -/
inductive DomElement where
  | marker
  | nodeDiv (v : NodeVisual)
deriving Repr, DecidableEq

/-- Modelled from the spec: the Observable utility lives in
`src/utils/Observable.js`, which is not part of the repository snapshot;
§9 of the spec describes it as a mapping from event name to handler list
with `on` / `off` / `fire` operations and a `destroy` that clears the
mapping. We record each delivered `fire` in the event log; once the
registry has been destroyed a `fire` reaches no handlers, so nothing is
recorded. -/
def fire (dia : Diagram) (e : Event) : Diagram :=
  if dia.observableAlive then { dia with firedEvents := dia.firedEvents ++ [e] }
  else dia

/-- `render(selector)`: sets `this._container`, appends the svg (with its
inner group and the arrowhead marker whose id is "end"), and appends the
container div. The mount flags record these attachments. -/
def render (dia : Diagram) : Diagram :=
  { dia with
      container := true
      svgMounted := true
      groupMounted := true
      markerMounted := true
      elMounted := true }

/-- `destroy()`: `this._observable.destroy()` tears down the event registry
(spec-modelled, see `fire`), `this._el.remove()` detaches the container div
together with every node visual inside it, and `this._group.remove()`
detaches the svg group together with the marker and every edge path inside
it. The svg element itself (`this._svg`) is not removed by the source. -/
def destroy (dia : Diagram) : Diagram :=
  { dia with
      observableAlive := false
      elMounted := false
      nodeVisuals := []
      groupMounted := false
      markerMounted := false
      edgeVisuals := [] }

/-- `document.getElementById(name)` over the document the widget populates:
the svg (holding the marker with id "end") precedes the container div in
document order, so the marker wins a lookup for "end"; otherwise the first
rendered node div whose id is `name` is found, provided the container div is
still attached. -/
def getElementById (dia : Diagram) (nodeName : String) : Option DomElement :=
  if dia.markerMounted ∧ nodeName = "end" then some DomElement.marker
  else if dia.elMounted then
    (dia.nodeVisuals.find? (fun v => v.id = nodeName)).map DomElement.nodeDiv
  else none

/-- Removes the node-selected class from the first visual in the list that
carries it (d3 class selectors resolve to the first matching element in
document order). -/
def clearFirstSelectedVisuals : List NodeVisual → List NodeVisual
  | [] => []
  | v :: vs =>
      if v.nodeSelected then { v with nodeSelected := false } :: vs
      else v :: clearFirstSelectedVisuals vs

/-- `d3.select("." + selectedClass).classed(selectedClass, false)`: the first
element of the document carrying the node-selected class loses it. The
marker (inside the svg) precedes the node divs in document order. -/
def clearFirstSelected (dia : Diagram) : Diagram :=
  if dia.markerMounted ∧ dia.markerSelected then { dia with markerSelected := false }
  else if dia.elMounted then
    { dia with nodeVisuals := clearFirstSelectedVisuals dia.nodeVisuals }
  else dia

/-- Adds the node-selected class to the first visual in the list whose id is
`nodeName` (the element `getElementById` resolved). -/
def markSelectedById (vs : List NodeVisual) (nodeName : String) : List NodeVisual :=
  match vs with
  | [] => []
  | v :: rest =>
      if v.id = nodeName then { v with nodeSelected := true } :: rest
      else v :: markSelectedById rest nodeName

/-- Adds the node-selected class to the given resolved element. -/
def setSelectedOn (dia : Diagram) (el : DomElement) : Diagram :=
  match el with
  | DomElement.marker => { dia with markerSelected := true }
  | DomElement.nodeDiv v =>
      { dia with nodeVisuals := markSelectedById dia.nodeVisuals v.id }

/-- `selectNode(nodeName, selected)`: resolves the element by DOM id and
throws if there is none; otherwise removes the node-selected class from the
first element carrying it and, when `selected` is true, adds the class to
the resolved element and remembers the selection. -/
def selectNode (dia : Diagram) (nodeName : String) (selected : Bool) :
    Except DiagramError Diagram :=
  match getElementById dia nodeName with
  | none => Except.error (DiagramError.nodeDoesNotExist nodeName)
  | some el =>
      if selected then
        let cleared := clearFirstSelected dia
        let marked := setSelectedOn cleared el
        Except.ok { marked with selectedNodeName := some nodeName }
      else
        Except.ok (clearFirstSelected dia)

/-- Removes the node-highlighted class from the first visual in the list that
carries it. -/
def clearFirstHighlightedVisuals : List NodeVisual → List NodeVisual
  | [] => []
  | v :: vs =>
      if v.nodeHighlighted then { v with nodeHighlighted := false } :: vs
      else v :: clearFirstHighlightedVisuals vs

/-- `d3.select("." + highlightedClass).classed(highlightedClass, false)`: the
first element of the document carrying the node-highlighted class loses
it. -/
def clearFirstHighlighted (dia : Diagram) : Diagram :=
  if dia.markerMounted ∧ dia.markerHighlighted then { dia with markerHighlighted := false }
  else if dia.elMounted then
    { dia with nodeVisuals := clearFirstHighlightedVisuals dia.nodeVisuals }
  else dia

/-- Adds the node-highlighted class to the first visual in the list whose id
is `nodeName`. -/
def markHighlightedById (vs : List NodeVisual) (nodeName : String) : List NodeVisual :=
  match vs with
  | [] => []
  | v :: rest =>
      if v.id = nodeName then { v with nodeHighlighted := true } :: rest
      else v :: markHighlightedById rest nodeName

/-- Adds the node-highlighted class to a resolved element; an empty d3
selection (element absent) makes `classed` a no-op. -/
def setHighlightedOn (dia : Diagram) (el : Option DomElement) : Diagram :=
  match el with
  | none => dia
  | some DomElement.marker => { dia with markerHighlighted := true }
  | some (DomElement.nodeDiv v) =>
      { dia with nodeVisuals := markHighlightedById dia.nodeVisuals v.id }

/-- `highlightNode(nodeName, highlighted)`: resolves `#nodeName`, returns
early when the dragging flag is set and the pointer event's related target is
a path element (`relatedTargetIsPath` stands for
`d3.event.relatedTarget && d3.event.relatedTarget.tagName == "path"`),
otherwise clears the node-highlighted class from the first element carrying
it, adds it to the resolved element when `highlighted` is true, and fires
`nodeHighlight(nodeName, highlighted)` in both branches. -/
def highlightNode (dia : Diagram) (nodeName : String) (highlighted : Bool)
    (relatedTargetIsPath : Bool) : Diagram :=
  let nodeEl := getElementById dia nodeName
  if dia.dragging ∧ relatedTargetIsPath then dia
  else if highlighted then
    fire (setHighlightedOn (clearFirstHighlighted dia) nodeEl)
      (Event.nodeHighlight nodeName highlighted)
  else
    fire (clearFirstHighlighted dia) (Event.nodeHighlight nodeName highlighted)

/-- `_onMouseDown(nodeName)`: sets the dragging flag and records the node
element's current bounding box. The box is runtime geometry supplied by the
browser, so it is a parameter here. -/
def _onMouseDown (dia : Diagram) (bb : Rect) : Diagram :=
  { dia with dragging := true, mouseDownBB := some bb }

/-- `_onMouseUp(nodeName)`: reads the node element's current bounding box
(`bb`, a parameter as in `_onMouseDown`), fires `nodeClick(nodeName)` when a
box was recorded at mousedown and its top and left equal the current box,
then clears the dragging flag. -/
def _onMouseUp (dia : Diagram) (nodeName : String) (bb : Rect) : Diagram :=
  let fired :=
    match dia.mouseDownBB with
    | some mbb =>
        if mbb.top = bb.top ∧ mbb.left = bb.left then
          fire dia (Event.nodeClick nodeName)
        else dia
    | none => dia
  { fired with dragging := false }

/-- `this._groupColors[node.group] || "#2196F3"`: association-list lookup for
the node's group with the JS falsy fallback (an absent group, an unknown
group key, or an empty color string all yield the default color). -/
def colorFor (groupColors : List (String × String)) (group : Option String) : String :=
  match group.bind (fun g => groupColors.lookup g) with
  | some c => if c = "" then "#2196F3" else c
  | none => "#2196F3"

/-- The inline style values `_renderNodes` passes to `_renderNode`, read from
the layout child at the node's index. -/
structure NodeStyles where
  top : Int
  left : Int
  width : Int
  height : Int
deriving Repr, DecidableEq

/-- The node visual `_renderNode` builds for one node: style values from the
layout, background color from the group colors, the node name as DOM id. -/
def nodeVisualOf (gc : List (String × String)) (node : Node) (styles : NodeStyles) :
    NodeVisual :=
  { id := node.name
    top := styles.top
    left := styles.left
    width := styles.width
    height := styles.height
    backgroundColor := colorFor gc node.group }

/-- `_renderNode(node, styles)`: appends a div under the container div with
the given style values, the computed background color, the node name as DOM
id, and the pointer handlers wired (the handlers are the transition
functions above). -/
def _renderNode (dia : Diagram) (node : Node) (styles : NodeStyles) : Diagram :=
  { dia with
      nodeVisuals := dia.nodeVisuals ++ [nodeVisualOf dia.groupColors node styles] }

/-- Builds the path data string of one routed edge section exactly as the
source does: empty unless both `startPoint` and `endPoint` are present,
otherwise `M` start, `L` per bend point, `L` end. -/
def edgePathD (s : ElkSection) : String :=
  match s.startPoint, s.endPoint with
  | some sp, some ep =>
      "M" ++ toString sp.x ++ " " ++ toString sp.y ++ " " ++
        String.join (s.bendPoints.map
          (fun bp => "L" ++ toString bp.x ++ " " ++ toString bp.y ++ " ")) ++
        "L" ++ toString ep.x ++ " " ++ toString ep.y ++ " "
  | _, _ => ""

/-- `_renderEdges(layout)`: for each stored edge (by index) appends one path
element to the svg group, with path data from `layout.edges[i].sections[0]`
and a `marker-end` (arrowhead) attribute set exactly when the edge type is
"arrow". The JS index accesses `layout.edges[i]` and `sections[0]` are
modelled by `zip` and `headD`; the theorems below assume the engine answered
with one layout edge per requested edge, as the request/response contract
states. `edgeVisualOf` is the path element the loop body appends for one
edge paired with its layout edge. -/
def edgeVisualOf (p : Edge × LayoutEdge) : EdgeVisual :=
  { d := edgePathD (p.2.sections.headD {})
    markerEnd := p.1.type = "arrow" }

/-- The `forEach` loop of `_renderEdges(layout)`: one path element appended
to the svg group per stored edge. -/
def _renderEdges (dia : Diagram) (layout : Layout) : Diagram :=
  (dia.edges.zip layout.edges).foldl
    (fun acc p => { acc with edgeVisuals := acc.edgeVisuals ++ [edgeVisualOf p] })
    dia

/-- JS `Math.max.apply(Math, list)`: the maximum of the list, `none` standing
for the `-Infinity` the call yields on an empty list. -/
def jsMax (l : List Int) : Option Int :=
  match l with
  | [] => none
  | x :: xs => some (xs.foldl max x)

/-- `_setGraphSize(nodes)`: computes the maxima of `y + height` and
`x + width` over the layout children and sets the container div's style
width/height and the svg's width/height attributes to exactly those
values. -/
def _setGraphSize (dia : Diagram) (children : List LayoutChild) : Diagram :=
  let maxHeight := jsMax (children.map (fun n => n.y + n.height))
  let maxWidth := jsMax (children.map (fun n => n.x + n.width))
  { dia with
      elWidth := maxWidth
      elHeight := maxHeight
      svgWidth := maxWidth
      svgHeight := maxHeight }

/-- The style values `_renderNodes` reads from one layout child: top from y,
left from x, and the child's width and height. -/
def styleOfChild (c : LayoutChild) : NodeStyles :=
  { top := c.y, left := c.x, width := c.width, height := c.height }

/-- `_renderNodes()`: builds the ELK graph, obtains the layout (the engine's
asynchronous answer is the `layout` parameter), renders one node visual per
stored node with the style values of the layout child at the same index
(JS `layout.children[i]` modelled by `zip`), then renders the edges and sets
the graph size. -/
def _renderNodes (dia : Diagram) (layout : Layout) : Diagram :=
  let withNodes :=
    (dia.nodes.zip layout.children).foldl
      (fun acc p => _renderNode acc p.1 (styleOfChild p.2))
      dia
  _setGraphSize (_renderEdges withNodes layout) layout.children

/-- `_getElkGraph()`: the ELK request built from the stored dataset — one
child per node with the node's name as id and fixed size 200×50, one edge
descriptor per edge with id `"edge_" + index` and singleton source/target
lists, and the static root properties. -/
def _getElkGraph (nodes : List Node) (edges : List Edge) : ElkGraph :=
  { id := "root"
    properties := _getRootProperties
    children := nodes.map (fun node => { id := node.name, width := 200, height := 50 })
    edges := edges.mapIdx (fun index edge =>
      { id := "edge_" ++ toString index
        sources := [edge.start]
        targets := [edge.«end»] }) }

/-- `setData(data)`: throws "Diagram is not rendered" when `this._container`
is unset; otherwise `this._el.html("")` empties the container div (removing
every node visual — the edge paths live in the svg group, which this call
does not touch), stores the new dataset, and re-renders with the layout the
engine returns for it. -/
def setData (dia : Diagram) (data : DiagramData) (layout : Layout) :
    Except DiagramError Diagram :=
  if dia.container = false then Except.error DiagramError.notRendered
  else
    let emptied := { dia with nodeVisuals := [] }
    let stored := { emptied with nodes := data.nodes.getD [], edges := data.edges.getD [] }
    Except.ok (_renderNodes stored layout)

/-- Number of elements of the document currently carrying the
node-highlighted class: the marker (counted when it is attached) plus the
rendered node visuals (counted when the container div is attached). The
spec's single-slot highlight invariant says this never exceeds one. -/
def highlightedCount (dia : Diagram) : Nat :=
  (if dia.markerMounted ∧ dia.markerHighlighted then 1 else 0) +
    (if dia.elMounted then
      (dia.nodeVisuals.filter (fun v => v.nodeHighlighted)).length
    else 0)

/-- A small concrete dataset used as evidence input: nodes A and B with one
arrow edge from A to B. -/
def nodesAB : List Node := [{ name := "A" }, { name := "B" }]

def edgesAB : List Edge := [{ start := "A", «end» := "B", type := "arrow" }]

def dataAB : DiagramData := { nodes := some nodesAB, edges := some edgesAB }

/-- A layout answer for `dataAB` with one child per node and one routed
section for the edge. -/
def layoutAB : Layout :=
  { children := [{ x := 0, y := 0, width := 200, height := 50 },
                 { x := 250, y := 0, width := 200, height := 50 }]
    edges := [{ sections := [{ startPoint := some { x := 200, y := 25 }
                               endPoint := some { x := 250, y := 25 } }] }] }

/-- The diagram produced by a successful `setData` of `dataAB` on a freshly
rendered widget. -/
def diagAB : Diagram :=
  match setData (render {}) dataAB layoutAB with
  | Except.ok d => d
  | Except.error _ => {}

/-- A dataset whose single node is named "end" — the same string `render`
assigns as the arrowhead marker's DOM id, so id lookups for this node
resolve the marker instead of the node's visual. -/
def nodesEnd : List Node := [{ name := "end" }]

def dataEnd : DiagramData := { nodes := some nodesEnd, edges := some [] }

/-- A layout answer for `dataEnd` with one child and no edges. -/
def layoutEnd : Layout :=
  { children := [{ x := 0, y := 0, width := 200, height := 50 }], edges := [] }

/-- The diagram produced by a successful `setData` of `dataEnd` on a freshly
rendered widget: one rendered node visual whose id is "end". -/
def diagEnd : Diagram :=
  match setData (render {}) dataEnd layoutEnd with
  | Except.ok d => d
  | Except.error _ => {}

/-! Helper lemmas: the render loops as list appends. -/

/-- The node-rendering `forEach` appends one visual per node/child pair and
changes nothing else. -/
theorem foldl_renderNode_eq (l : List (Node × LayoutChild)) (s : Diagram) :
    l.foldl (fun acc p => _renderNode acc p.1 (styleOfChild p.2)) s =
      { s with
          nodeVisuals := s.nodeVisuals ++
            l.map (fun p => nodeVisualOf s.groupColors p.1 (styleOfChild p.2)) } := by
  induction l generalizing s with
  | nil => simp
  | cons x xs ih =>
      rw [List.foldl_cons, ih]
      simp [_renderNode]

/-- The edge-rendering `forEach` appends one path visual per edge/layout-edge
pair and changes nothing else. -/
theorem foldl_renderEdge_eq (l : List (Edge × LayoutEdge)) (s : Diagram) :
    l.foldl (fun acc p => { acc with edgeVisuals := acc.edgeVisuals ++ [edgeVisualOf p] }) s =
      { s with edgeVisuals := s.edgeVisuals ++ l.map edgeVisualOf } := by
  induction l generalizing s with
  | nil => simp
  | cons x xs ih =>
      rw [List.foldl_cons, ih]
      simp

/-- C1: the claim says `setData` clears all previously rendered node and edge
visuals before drawing the new set, leaving exactly N node and M edge
visuals. The code empties only the container div (`this._el.html("")`); the
edge paths live in the svg group, which `setData` never clears, so a second
`setData` with the same 2-node/1-edge dataset leaves 2 node visuals (correct)
but 2 edge visuals for a 1-edge dataset: the first call's path is stale. -/
theorem setData_accumulates_edge_visuals :
    (((setData (render {}) dataAB layoutAB).bind
          (fun d1 => setData d1 dataAB layoutAB)).map
        (fun d2 => (d2.nodes.length, d2.nodeVisuals.length,
                    d2.edges.length, d2.edgeVisuals.length))) =
      Except.ok (2, 2, 1, 2) := by
  rfl

/-- C2: for a mousedown/mouseup pair on a node, the click fires exactly when
the recorded bounding box and the box at mouseup share top and left: in that
case exactly one `nodeClick` with the node's name is appended to the event
log, otherwise the log is unchanged; the dragging flag is cleared after the
mouseup in both cases. -/
theorem mousedown_mouseup_click_detection (dia : Diagram) (nodeName : String)
    (bbDown bbUp : Rect) (halive : dia.observableAlive = true) :
    (_onMouseUp (_onMouseDown dia bbDown) nodeName bbUp).dragging = false ∧
    (bbDown.top = bbUp.top ∧ bbDown.left = bbUp.left →
      (_onMouseUp (_onMouseDown dia bbDown) nodeName bbUp).firedEvents =
        dia.firedEvents ++ [Event.nodeClick nodeName]) ∧
    (¬(bbDown.top = bbUp.top ∧ bbDown.left = bbUp.left) →
      (_onMouseUp (_onMouseDown dia bbDown) nodeName bbUp).firedEvents =
        dia.firedEvents) := by
  refine ⟨rfl, ?_, ?_⟩ <;> intro h <;>
    simp [_onMouseUp, _onMouseDown, fire, halive, h]

/-- Witness for C2 at a concrete state and boxes. -/
theorem mousedown_mouseup_click_detection_witness :
    (_onMouseUp (_onMouseDown {} { top := 1, left := 2 }) "A" { top := 1, left := 2 }).firedEvents =
      ([] : List Event) ++ [Event.nodeClick "A"] :=
  (mousedown_mouseup_click_detection {} "A" { top := 1, left := 2 }
      { top := 1, left := 2 } rfl).2.1 ⟨rfl, rfl⟩

/-- C4: calling `setData` when `render` has not set the container throws the
"not rendered" error; the call returns only the error, so no visual and no
stored dataset is touched. -/
theorem setData_before_render_throws (dia : Diagram) (data : DiagramData)
    (layout : Layout) (h : dia.container = false) :
    setData dia data layout = Except.error DiagramError.notRendered := by
  simp [setData, h]

/-- Witness for C4 on a freshly constructed, never rendered widget. -/
theorem setData_before_render_throws_witness :
    setData {} dataAB layoutAB = Except.error DiagramError.notRendered :=
  setData_before_render_throws {} dataAB layoutAB rfl

/-- C5: the LayoutRequest built from a dataset has one child per node with the
node's name as id, width 200 and height 50; one edge descriptor per edge with
id "edge_" + index and singleton sources/targets holding the edge's start and
end names; and root properties algorithm "layered", direction "RIGHT". -/
theorem elkGraph_shape (nodes : List Node) (edges : List Edge) :
    (_getElkGraph nodes edges).properties.algorithm = "layered" ∧
    (_getElkGraph nodes edges).properties.direction = "RIGHT" ∧
    (_getElkGraph nodes edges).children.length = nodes.length ∧
    (_getElkGraph nodes edges).edges.length = edges.length ∧
    (∀ (i : Nat) (n : Node), nodes[i]? = some n →
      (_getElkGraph nodes edges).children[i]? =
        some { id := n.name, width := 200, height := 50 }) ∧
    (∀ (i : Nat) (e : Edge), edges[i]? = some e →
      (_getElkGraph nodes edges).edges[i]? =
        some { id := "edge_" ++ toString i, sources := [e.start], targets := [e.«end»] }) := by
  refine ⟨rfl, rfl, by simp [_getElkGraph], by simp [_getElkGraph], ?_, ?_⟩
  · intro i n h
    simp [_getElkGraph, h]
  · intro i e h
    obtain ⟨hi, hget⟩ := List.getElem?_eq_some.mp h
    have h2 : i < ((_getElkGraph nodes edges).edges).length := by
      simpa [_getElkGraph] using hi
    rw [List.getElem?_eq_getElem h2]
    have h3 := List.get_mapIdx edges
      (fun index edge => ({ id := "edge_" ++ toString index
                            sources := [edge.start]
                            targets := [edge.«end»] } : ElkEdge)) i hi
    simp only [List.get_eq_getElem] at h3
    simp only [_getElkGraph]
    simp [h3, hget]

/-- Witness for C5 on the two-node one-edge dataset. -/
theorem elkGraph_shape_witness :
    (_getElkGraph nodesAB edgesAB).children[1]? =
        some { id := "B", width := 200, height := 50 } ∧
    (_getElkGraph nodesAB edgesAB).edges[0]? =
        some { id := "edge_0", sources := ["A"], targets := ["B"] } :=
  ⟨(elkGraph_shape nodesAB edgesAB).2.2.2.2.1 1 { name := "B" } rfl,
   (elkGraph_shape nodesAB edgesAB).2.2.2.2.2 0
     { start := "A", «end» := "B", type := "arrow" } rfl⟩

/-- C9: the claim says `destroy` removes every element the widget attached
under the mount point. The code tears down the observable registry and
removes the container div (with all node visuals) and the svg group (with
the marker and all edge paths), but leaves the svg element itself attached:
`this._svg.remove()` is never called. -/
theorem destroy_leaves_svg_attached :
    (destroy (render {})).observableAlive = false ∧
    (destroy (render {})).elMounted = false ∧
    (destroy (render {})).groupMounted = false ∧
    (destroy (render {})).markerMounted = false ∧
    (destroy (render {})).nodeVisuals = [] ∧
    (destroy (render {})).edgeVisuals = [] ∧
    (destroy (render {})).svgMounted = true :=
  ⟨rfl, rfl, rfl, rfl, rfl, rfl, rfl⟩

/-- C10: a mouseup whose guard on the stored mouse-down box is falsy (no box
recorded) fires nothing and only clears the dragging flag. -/
theorem mouseUp_without_recorded_box (dia : Diagram) (nodeName : String)
    (bb : Rect) (h : dia.mouseDownBB = none) :
    (_onMouseUp dia nodeName bb).firedEvents = dia.firedEvents ∧
    _onMouseUp dia nodeName bb = { dia with dragging := false } := by
  constructor
  · simp [_onMouseUp, h]
  · simp [_onMouseUp, h]

/-- Witness for C10 on a fresh state, whose recorded box is absent. -/
theorem mouseUp_without_recorded_box_witness :
    _onMouseUp {} "A" { top := 3, left := 4 } = { ({} : Diagram) with dragging := false } :=
  (mouseUp_without_recorded_box {} "A" { top := 3, left := 4 } rfl).2

/-- C7: for every rendered edge the appended path visual carries an arrowhead
marker exactly when the edge type is "arrow"; a "link" edge and any
unrecognized type yield a path with no marker, and rendering is total (no
error is raised for unknown types — the source only tests
`edge.type == "arrow"`). Assumes the engine answered with one layout edge
per requested edge. -/
theorem renderEdges_arrowheads (dia : Diagram) (layout : Layout)
    (hlen : layout.edges.length = dia.edges.length) :
    (_renderEdges dia layout).edgeVisuals.length =
        dia.edgeVisuals.length + dia.edges.length ∧
    ∀ (i : Nat) (e : Edge), dia.edges[i]? = some e →
      ∃ v : EdgeVisual,
        (_renderEdges dia layout).edgeVisuals[dia.edgeVisuals.length + i]? = some v ∧
        (e.type = "arrow" → v.markerEnd = true) ∧
        (e.type ≠ "arrow" → v.markerEnd = false) := by
  have hre := foldl_renderEdge_eq (dia.edges.zip layout.edges) dia
  rw [_renderEdges, hre]
  constructor
  · simp [List.length_zip, hlen]
  · intro i e h
    obtain ⟨hi, hget⟩ := List.getElem?_eq_some.mp h
    have hi2 : i < layout.edges.length := by omega
    have hzip : i < (dia.edges.zip layout.edges).length := by
      simp [List.length_zip]; omega
    refine ⟨edgeVisualOf (e, layout.edges[i]), ?_, ?_, ?_⟩
    · rw [List.getElem?_append_right (by omega)]
      have hmap : i < ((dia.edges.zip layout.edges).map edgeVisualOf).length := by
        simpa using hzip
      rw [show dia.edgeVisuals.length + i - dia.edgeVisuals.length = i by omega]
      rw [List.getElem?_eq_getElem hmap]
      congr 1
      rw [List.getElem_map]
      congr 1
      rw [List.getElem_zip]
      simp [hget]
    · intro he
      simp [edgeVisualOf, he]
    · intro he
      simp [edgeVisualOf, he]

/-- Witness for C7: an "arrow" edge gets a marker on the only path visual. -/
theorem renderEdges_arrowheads_witness :
    ∃ v : EdgeVisual,
      (_renderEdges { render {} with edges := edgesAB } layoutAB).edgeVisuals[0 + 0]? =
          some v ∧
      (({ start := "A", «end» := "B", type := "arrow" } : Edge).type = "arrow" →
        v.markerEnd = true) ∧
      (({ start := "A", «end» := "B", type := "arrow" } : Edge).type ≠ "arrow" →
        v.markerEnd = false) :=
  (renderEdges_arrowheads { render {} with edges := edgesAB } layoutAB rfl).2 0
    { start := "A", «end» := "B", type := "arrow" } rfl

/-- The start value is bounded by a `foldl max`. -/
theorem foldl_max_init_le (xs : List Int) (a : Int) : a ≤ xs.foldl max a := by
  induction xs generalizing a with
  | nil => exact le_refl a
  | cons x xs ih => exact le_trans (le_max_left a x) (ih (max a x))

/-- Every list element is bounded by a `foldl max`. -/
theorem foldl_max_le_of_mem (xs : List Int) :
    ∀ a x : Int, x ∈ xs → x ≤ xs.foldl max a := by
  induction xs with
  | nil => intro a x hx; cases hx
  | cons y ys ih =>
      intro a x hx
      rw [List.foldl_cons]
      rcases List.mem_cons.mp hx with h | h
      · subst h
        exact le_trans (le_max_right a x) (foldl_max_init_le ys (max a x))
      · exact ih (max a y) x h

/-- A `foldl max` is the start value or one of the list elements. -/
theorem foldl_max_mem (xs : List Int) (a : Int) :
    xs.foldl max a = a ∨ xs.foldl max a ∈ xs := by
  induction xs generalizing a with
  | nil => exact Or.inl rfl
  | cons y ys ih =>
      rcases ih (max a y) with h | h
      · rcases max_choice a y with hm | hm
        · left; rw [List.foldl_cons, h, hm]
        · right; rw [List.foldl_cons, h, hm]; exact List.mem_cons_self y ys
      · right; exact List.mem_cons_of_mem y h

/-- On a nonempty list, `jsMax` returns an attained upper bound. -/
theorem jsMax_spec (l : List Int) (hne : l ≠ []) :
    ∃ m, jsMax l = some m ∧ m ∈ l ∧ ∀ x ∈ l, x ≤ m := by
  match l, hne with
  | x :: xs, _ =>
      refine ⟨xs.foldl max x, rfl, ?_, ?_⟩
      · rcases foldl_max_mem xs x with h | h
        · rw [h]; exact List.mem_cons_self x xs
        · exact List.mem_cons_of_mem x h
      · intro y hy
        rcases List.mem_cons.mp hy with h | h
        · subst h; exact foldl_max_init_le xs y
        · exact foldl_max_le_of_mem xs x y h

/-- A successful `setData` sets all four size fields to the `jsMax` of the
layout children's extents. -/
theorem setData_ok_sizes (dia : Diagram) (data : DiagramData) (layout : Layout)
    (d2 : Diagram) (h : setData dia data layout = Except.ok d2) :
    d2.elWidth = jsMax (layout.children.map (fun c => c.x + c.width)) ∧
    d2.elHeight = jsMax (layout.children.map (fun c => c.y + c.height)) ∧
    d2.svgWidth = jsMax (layout.children.map (fun c => c.x + c.width)) ∧
    d2.svgHeight = jsMax (layout.children.map (fun c => c.y + c.height)) := by
  by_cases hc : dia.container = false
  · simp [setData, hc] at h
  · simp only [setData, if_neg hc] at h
    obtain rfl := (Except.ok.injEq _ _).mp h
    exact ⟨rfl, rfl, rfl, rfl⟩

/-- C8: after a successful `setData` with a nonempty layout, the container
div and the svg drawing surface are sized to exactly the maximum over all
laid-out children of x+width horizontally and y+height vertically — an
attained tight bound, no padding. -/
theorem setData_sizes_extent (dia : Diagram) (data : DiagramData) (layout : Layout)
    (d2 : Diagram) (h : setData dia data layout = Except.ok d2)
    (hne : layout.children ≠ []) :
    ∃ mW mH,
      d2.elWidth = some mW ∧ d2.svgWidth = some mW ∧
      d2.elHeight = some mH ∧ d2.svgHeight = some mH ∧
      (∀ c ∈ layout.children, c.x + c.width ≤ mW ∧ c.y + c.height ≤ mH) ∧
      (∃ c ∈ layout.children, c.x + c.width = mW) ∧
      (∃ c ∈ layout.children, c.y + c.height = mH) := by
  obtain ⟨hw, hh, hsw, hsh⟩ := setData_ok_sizes dia data layout d2 h
  have hneW : layout.children.map (fun c => c.x + c.width) ≠ [] := by
    simpa using hne
  have hneH : layout.children.map (fun c => c.y + c.height) ≠ [] := by
    simpa using hne
  obtain ⟨mW, hmW, hmemW, hboundW⟩ := jsMax_spec _ hneW
  obtain ⟨mH, hmH, hmemH, hboundH⟩ := jsMax_spec _ hneH
  obtain ⟨cW, hcW, hcWeq⟩ := List.mem_map.mp hmemW
  obtain ⟨cH, hcH, hcHeq⟩ := List.mem_map.mp hmemH
  refine ⟨mW, mH, by rw [hw, hmW], by rw [hsw, hmW], by rw [hh, hmH],
    by rw [hsh, hmH], ?_, ⟨cW, hcW, hcWeq⟩, ⟨cH, hcH, hcHeq⟩⟩
  intro c hc
  exact ⟨hboundW _ (List.mem_map_of_mem _ hc), hboundH _ (List.mem_map_of_mem _ hc)⟩

/-- Witness for C8 on the concrete two-node dataset. -/
theorem setData_sizes_extent_witness :
    ∃ mW mH,
      diagAB.elWidth = some mW ∧ diagAB.svgWidth = some mW ∧
      diagAB.elHeight = some mH ∧ diagAB.svgHeight = some mH ∧
      (∀ c ∈ layoutAB.children, c.x + c.width ≤ mW ∧ c.y + c.height ≤ mH) ∧
      (∃ c ∈ layoutAB.children, c.x + c.width = mW) ∧
      (∃ c ∈ layoutAB.children, c.y + c.height = mH) :=
  setData_sizes_extent (render {}) dataAB layoutAB diagAB rfl (by decide)

/-- Removing the selected class from a visual that does not carry it is the
identity. -/
theorem setSelected_false_eq (w : NodeVisual) (hw : w.nodeSelected = false) :
    { w with nodeSelected := false } = w := by
  cases w
  simp_all

/-- Clearing the first selected visual in a list with no selected visual
changes nothing. -/
theorem clearFirstSelectedVisuals_of_clean (vs : List NodeVisual)
    (h : ∀ v ∈ vs, v.nodeSelected = false) :
    clearFirstSelectedVisuals vs = vs := by
  induction vs with
  | nil => rfl
  | cons v rest ih =>
      have hv : v.nodeSelected = false := h v (List.mem_cons_self _ _)
      simp [clearFirstSelectedVisuals, hv,
        ih (fun w hw => h w (List.mem_cons_of_mem _ hw))]

/-- Clearing the first selected visual right after marking one node selected
in a clean list restores the original list. -/
theorem clearFirst_markSelected_of_clean (vs : List NodeVisual) (name : String)
    (h : ∀ v ∈ vs, v.nodeSelected = false) :
    clearFirstSelectedVisuals (markSelectedById vs name) = vs := by
  induction vs with
  | nil => rfl
  | cons v rest ih =>
      have hv : v.nodeSelected = false := h v (List.mem_cons_self _ _)
      by_cases hid : v.id = name
      · have h1 : markSelectedById (v :: rest) name =
            { v with nodeSelected := true } :: rest := by
          rw [markSelectedById]; exact if_pos hid
        have h2 : clearFirstSelectedVisuals ({ v with nodeSelected := true } :: rest) =
            { v with nodeSelected := false } :: rest := by
          rw [clearFirstSelectedVisuals]; exact if_pos rfl
        rw [h1, h2, setSelected_false_eq v hv]
      · simp [markSelectedById, hid, clearFirstSelectedVisuals, hv,
          ih (fun w hw => h w (List.mem_cons_of_mem _ hw))]

/-- After marking one node selected in a clean list, the ids of the selected
visuals are exactly that node's name when it is rendered, nothing
otherwise. -/
theorem selected_ids_markSelectedById (vs : List NodeVisual) (name : String)
    (h : ∀ v ∈ vs, v.nodeSelected = false) :
    ((markSelectedById vs name).filter (fun v => v.nodeSelected)).map (fun v => v.id) =
      if (vs.find? (fun v => v.id = name)).isSome then [name] else [] := by
  induction vs with
  | nil => simp [markSelectedById]
  | cons v rest ih =>
      have hv : v.nodeSelected = false := h v (List.mem_cons_self _ _)
      have hrest : ∀ w ∈ rest, w.nodeSelected = false :=
        fun w hw => h w (List.mem_cons_of_mem _ hw)
      by_cases hid : v.id = name
      · have hfrest : rest.filter (fun v => v.nodeSelected) = [] :=
          List.filter_eq_nil_iff.mpr (fun w hw => by simp [hrest w hw])
        simp [markSelectedById, hid, List.find?, List.filter, hfrest]
      · simp [markSelectedById, hid, List.find?, List.filter, hv, ih hrest]

/-- Marking a node selected does not change which ids a `find?` by id can
resolve. -/
theorem find?_isSome_markSelectedById (vs : List NodeVisual) (n m : String) :
    ((markSelectedById vs n).find? (fun v => v.id = m)).isSome =
      (vs.find? (fun v => v.id = m)).isSome := by
  induction vs with
  | nil => rfl
  | cons v rest ih =>
      by_cases hn : v.id = n
      · subst hn
        by_cases hm : v.id = m
        · subst hm
          simp [markSelectedById, List.find?]
        · simp [markSelectedById, List.find?, hm]
      · have h1 : markSelectedById (v :: rest) n = v :: markSelectedById rest n := by
          rw [markSelectedById]; exact if_neg hn
        by_cases hm : v.id = m
        · rw [h1, List.find?_cons_of_pos _ (by simp [hm]),
            List.find?_cons_of_pos _ (by simp [hm])]
        · rw [h1, List.find?_cons_of_neg _ (by simp [hm]),
            List.find?_cons_of_neg _ (by simp [hm]), ih]

/-- C3 counterexample: the claim says `selectNode` on a name with no rendered
node visual throws a precondition error. On a freshly rendered widget no
node visual exists at all, yet `selectNode("end", true)` succeeds: `render`
gave the arrowhead marker the DOM id "end" (the svg precedes the container
div in document order), so the id lookup resolves the marker, which receives
the selected class and is remembered as the current selection. -/
theorem selectNode_end_resolves_marker :
    (render {}).nodeVisuals = [] ∧
    selectNode (render {}) "end" true =
      Except.ok { render {} with markerSelected := true, selectedNodeName := some "end" } := by
  constructor
  · rfl
  · rfl

/-- C3 (amended): for node names other than the reserved marker id "end",
selecting node A and then node B on a rendered widget (clean initial
selection state) leaves exactly B's visual carrying the selected class and
A's visual unselected, with B remembered as the current selection; and
`selectNode` on a name resolving to no element of the document (no rendered
node visual and not the marker id "end") throws the precondition error,
returning only the error so the prior selection state is untouched. -/
theorem selectNode_reselect_and_missing (dia : Diagram) (nameA nameB : String)
    (hEl : dia.elMounted = true)
    (hMark : dia.markerSelected = false)
    (hAend : nameA ≠ "end") (hBend : nameB ≠ "end") (hAB : nameA ≠ nameB)
    (hclean : ∀ v ∈ dia.nodeVisuals, v.nodeSelected = false)
    (hfA : (dia.nodeVisuals.find? (fun v => v.id = nameA)).isSome = true)
    (hfB : (dia.nodeVisuals.find? (fun v => v.id = nameB)).isSome = true) :
    (∃ dA dB : Diagram,
      selectNode dia nameA true = Except.ok dA ∧
      selectNode dA nameB true = Except.ok dB ∧
      ((dB.nodeVisuals.filter (fun v => v.nodeSelected)).map (fun v => v.id) = [nameB]) ∧
      (∀ v ∈ dB.nodeVisuals, v.id = nameA → v.nodeSelected = false) ∧
      dB.markerSelected = false ∧
      dB.selectedNodeName = some nameB) ∧
    (∀ (badName : String) (s : Bool), getElementById dia badName = none →
      selectNode dia badName s = Except.error (DiagramError.nodeDoesNotExist badName)) := by
  constructor
  · obtain ⟨vA, hvA⟩ := Option.isSome_iff_exists.mp hfA
    have hidA : vA.id = nameA := by simpa using List.find?_some hvA
    have hfB2 : ((markSelectedById dia.nodeVisuals nameA).find?
        (fun v => v.id = nameB)).isSome = true := by
      rw [find?_isSome_markSelectedById]; exact hfB
    obtain ⟨vB, hvB⟩ := Option.isSome_iff_exists.mp hfB2
    have hidB : vB.id = nameB := by simpa using List.find?_some hvB
    have hfilter : ((markSelectedById dia.nodeVisuals nameB).filter
        (fun v => v.nodeSelected)).map (fun v => v.id) = [nameB] := by
      rw [selected_ids_markSelectedById _ _ hclean, if_pos hfB]
    obtain ⟨gc, cont, svgM, grpM, mkM, mkS, mkH, elM, nds, eds, nvs, evs,
      ew, eh, sw, sh, sel, drag, mbb, alive, fev⟩ := dia
    dsimp only at hvA hvB hfilter hclean hMark hEl
    subst hMark
    subst hEl
    refine ⟨⟨gc, cont, svgM, grpM, mkM, false, mkH, true, nds, eds,
              markSelectedById nvs nameA, evs, ew, eh, sw, sh, some nameA,
              drag, mbb, alive, fev⟩,
            ⟨gc, cont, svgM, grpM, mkM, false, mkH, true, nds, eds,
              markSelectedById nvs nameB, evs, ew, eh, sw, sh, some nameB,
              drag, mbb, alive, fev⟩, ?_, ?_, hfilter, ?_, rfl, rfl⟩
    · simp [selectNode, getElementById, hAend, hvA, clearFirstSelected,
        clearFirstSelectedVisuals_of_clean _ hclean, setSelectedOn, hidA]
    · simp [selectNode, getElementById, hBend, hvB, clearFirstSelected,
        clearFirst_markSelected_of_clean _ _ hclean, setSelectedOn, hidB]
    · intro v hv hvid
      cases hvs : v.nodeSelected with
      | false => rfl
      | true =>
          have hmem : v ∈ (markSelectedById nvs nameB).filter
              (fun v => v.nodeSelected) :=
            List.mem_filter.mpr ⟨hv, by simp [hvs]⟩
          have hidmem : v.id ∈ ((markSelectedById nvs nameB).filter
              (fun v => v.nodeSelected)).map (fun v => v.id) :=
            List.mem_map_of_mem _ hmem
          rw [hfilter] at hidmem
          simp at hidmem
          exact absurd (hvid.symm.trans hidmem) hAB
  · intro badName s h
    simp [selectNode, h]

/-- Witness for C3 on the concrete rendered two-node diagram. -/
theorem selectNode_reselect_and_missing_witness :
    (∃ dA dB : Diagram,
      selectNode diagAB "A" true = Except.ok dA ∧
      selectNode dA "B" true = Except.ok dB ∧
      ((dB.nodeVisuals.filter (fun v => v.nodeSelected)).map (fun v => v.id) = ["B"]) ∧
      (∀ v ∈ dB.nodeVisuals, v.id = "A" → v.nodeSelected = false) ∧
      dB.markerSelected = false ∧
      dB.selectedNodeName = some "B") ∧
    (∀ (badName : String) (s : Bool), getElementById diagAB badName = none →
      selectNode diagAB badName s =
        Except.error (DiagramError.nodeDoesNotExist badName)) :=
  selectNode_reselect_and_missing diagAB "A" "B" rfl rfl (by decide) (by decide)
    (by decide) (by decide) (by decide) (by decide)

/-- Removing the highlighted class from a visual that does not carry it is
the identity. -/
theorem setHighlighted_false_eq (w : NodeVisual) (hw : w.nodeHighlighted = false) :
    { w with nodeHighlighted := false } = w := by
  cases w
  simp_all

/-- Clearing the first highlighted visual in a list with no highlighted
visual changes nothing. -/
theorem clearFirstHighlightedVisuals_of_clean (vs : List NodeVisual)
    (h : ∀ v ∈ vs, v.nodeHighlighted = false) :
    clearFirstHighlightedVisuals vs = vs := by
  induction vs with
  | nil => rfl
  | cons v rest ih =>
      have hv : v.nodeHighlighted = false := h v (List.mem_cons_self _ _)
      simp [clearFirstHighlightedVisuals, hv,
        ih (fun w hw => h w (List.mem_cons_of_mem _ hw))]

/-- Clearing the first highlighted visual right after marking one node
highlighted in a clean list restores the original list. -/
theorem clearFirst_markHighlighted_of_clean (vs : List NodeVisual) (name : String)
    (h : ∀ v ∈ vs, v.nodeHighlighted = false) :
    clearFirstHighlightedVisuals (markHighlightedById vs name) = vs := by
  induction vs with
  | nil => rfl
  | cons v rest ih =>
      have hv : v.nodeHighlighted = false := h v (List.mem_cons_self _ _)
      by_cases hid : v.id = name
      · have h1 : markHighlightedById (v :: rest) name =
            { v with nodeHighlighted := true } :: rest := by
          rw [markHighlightedById]; exact if_pos hid
        have h2 : clearFirstHighlightedVisuals
            ({ v with nodeHighlighted := true } :: rest) =
            { v with nodeHighlighted := false } :: rest := by
          rw [clearFirstHighlightedVisuals]; exact if_pos rfl
        rw [h1, h2, setHighlighted_false_eq v hv]
      · simp [markHighlightedById, hid, clearFirstHighlightedVisuals, hv,
          ih (fun w hw => h w (List.mem_cons_of_mem _ hw))]

/-- After marking one node highlighted in a clean list, the ids of the
highlighted visuals are exactly that node's name when it is rendered,
nothing otherwise. -/
theorem highlighted_ids_markHighlightedById (vs : List NodeVisual) (name : String)
    (h : ∀ v ∈ vs, v.nodeHighlighted = false) :
    ((markHighlightedById vs name).filter (fun v => v.nodeHighlighted)).map
        (fun v => v.id) =
      if (vs.find? (fun v => v.id = name)).isSome then [name] else [] := by
  induction vs with
  | nil => simp [markHighlightedById]
  | cons v rest ih =>
      have hv : v.nodeHighlighted = false := h v (List.mem_cons_self _ _)
      have hrest : ∀ w ∈ rest, w.nodeHighlighted = false :=
        fun w hw => h w (List.mem_cons_of_mem _ hw)
      by_cases hid : v.id = name
      · have hfrest : rest.filter (fun v => v.nodeHighlighted) = [] :=
          List.filter_eq_nil_iff.mpr (fun w hw => by simp [hrest w hw])
        simp [markHighlightedById, hid, List.find?, List.filter, hfrest]
      · simp [markHighlightedById, hid, List.find?, List.filter, hv, ih hrest]

/-- Marking a node highlighted does not change which ids a `find?` by id can
resolve. -/
theorem find?_isSome_markHighlightedById (vs : List NodeVisual) (n m : String) :
    ((markHighlightedById vs n).find? (fun v => v.id = m)).isSome =
      (vs.find? (fun v => v.id = m)).isSome := by
  induction vs with
  | nil => rfl
  | cons v rest ih =>
      by_cases hn : v.id = n
      · subst hn
        by_cases hm : v.id = m
        · subst hm
          simp [markHighlightedById, List.find?]
        · simp [markHighlightedById, List.find?, hm]
      · have h1 : markHighlightedById (v :: rest) n =
            v :: markHighlightedById rest n := by
          rw [markHighlightedById]; exact if_neg hn
        by_cases hm : v.id = m
        · rw [h1, List.find?_cons_of_pos _ (by simp [hm]),
            List.find?_cons_of_pos _ (by simp [hm])]
        · rw [h1, List.find?_cons_of_neg _ (by simp [hm]),
            List.find?_cons_of_neg _ (by simp [hm]), ih]

/-- Clearing the first highlighted visual from a list carrying the class at
most once leaves a list with no highlighted visual. -/
theorem filter_clearFirstHighlightedVisuals (vs : List NodeVisual)
    (h : (vs.filter (fun v => v.nodeHighlighted)).length ≤ 1) :
    (clearFirstHighlightedVisuals vs).filter (fun v => v.nodeHighlighted) = [] := by
  induction vs with
  | nil => rfl
  | cons v rest ih =>
      by_cases hv : v.nodeHighlighted = true
      · have h1 : clearFirstHighlightedVisuals (v :: rest) =
            { v with nodeHighlighted := false } :: rest := by
          rw [clearFirstHighlightedVisuals]; exact if_pos hv
        have hlen : (rest.filter (fun v => v.nodeHighlighted)).length = 0 := by
          rw [List.filter_cons_of_pos (by simp [hv]), List.length_cons] at h
          omega
        rw [h1, List.filter_cons_of_neg (by simp)]
        exact List.length_eq_zero.mp hlen
      · have h1 : clearFirstHighlightedVisuals (v :: rest) =
            v :: clearFirstHighlightedVisuals rest := by
          rw [clearFirstHighlightedVisuals]; exact if_neg hv
        have h2 : (rest.filter (fun v => v.nodeHighlighted)).length ≤ 1 := by
          rw [List.filter_cons_of_neg (by simp [hv])] at h
          exact h
        rw [h1, List.filter_cons_of_neg (by simp [hv])]
        exact ih h2

/-- Marking one node highlighted in a clean list yields at most one
highlighted visual. -/
theorem filter_markHighlightedById_le_one (vs : List NodeVisual) (name : String)
    (h : ∀ v ∈ vs, v.nodeHighlighted = false) :
    ((markHighlightedById vs name).filter (fun v => v.nodeHighlighted)).length ≤ 1 := by
  have hids := highlighted_ids_markHighlightedById vs name h
  have hlen : (((markHighlightedById vs name).filter
      (fun v => v.nodeHighlighted)).map (fun v => v.id)).length ≤ 1 := by
    rw [hids]; split <;> simp
  simpa using hlen

/-- Firing an event does not change which elements carry the highlighted
class. -/
theorem highlightedCount_fire (dia : Diagram) (e : Event) :
    highlightedCount (fire dia e) = highlightedCount dia := by
  rw [fire]
  split <;> rfl

/-- Clearing the first highlighted element of a document carrying the class
at most once leaves no element carrying it. -/
theorem highlightedCount_clearFirst (dia : Diagram) (h : highlightedCount dia ≤ 1) :
    highlightedCount (clearFirstHighlighted dia) = 0 := by
  by_cases hc : dia.markerMounted = true ∧ dia.markerHighlighted = true
  · have h1 : clearFirstHighlighted dia = { dia with markerHighlighted := false } := by
      rw [clearFirstHighlighted]; exact if_pos hc
    rw [h1]
    simp only [highlightedCount] at h ⊢
    rw [if_pos hc] at h
    have hX : (if dia.elMounted = true then
        (dia.nodeVisuals.filter (fun v => v.nodeHighlighted)).length else 0) = 0 := by
      omega
    simp [hX]
  · by_cases hel : dia.elMounted = true
    · have h1 : clearFirstHighlighted dia =
          { dia with nodeVisuals := clearFirstHighlightedVisuals dia.nodeVisuals } := by
        rw [clearFirstHighlighted, if_neg hc]; exact if_pos hel
      rw [h1]
      simp only [highlightedCount] at h ⊢
      rw [if_neg hc, if_pos hel] at h
      have hflt : (dia.nodeVisuals.filter (fun v => v.nodeHighlighted)).length ≤ 1 := by
        omega
      simp [hc, hel, filter_clearFirstHighlightedVisuals _ hflt]
    · have h1 : clearFirstHighlighted dia = dia := by
        rw [clearFirstHighlighted, if_neg hc]; exact if_neg hel
      rw [h1]
      simp only [highlightedCount]
      simp [hc, hel]

/-- Adding the highlighted class to one resolved element of a document with
no highlighted element leaves at most one element carrying it. -/
theorem highlightedCount_setHighlighted (dia : Diagram) (el : Option DomElement)
    (h : highlightedCount dia = 0) :
    highlightedCount (setHighlightedOn dia el) ≤ 1 := by
  match el with
  | none =>
      rw [setHighlightedOn]
      omega
  | some DomElement.marker =>
      rw [setHighlightedOn]
      simp only [highlightedCount] at h ⊢
      split <;> omega
  | some (DomElement.nodeDiv v) =>
      rw [setHighlightedOn]
      simp only [highlightedCount] at h ⊢
      by_cases hel : dia.elMounted = true
      · rw [if_pos hel] at h ⊢
        have hflt : dia.nodeVisuals.filter (fun w => w.nodeHighlighted) = [] := by
          have hlen : (dia.nodeVisuals.filter (fun w => w.nodeHighlighted)).length = 0 := by
            omega
          exact List.length_eq_zero.mp hlen
        have hclean : ∀ w ∈ dia.nodeVisuals, w.nodeHighlighted = false := by
          intro w hw
          have := List.filter_eq_nil_iff.mp hflt w hw
          simpa using this
        have hle := filter_markHighlightedById_le_one dia.nodeVisuals v.id hclean
        omega
      · rw [if_neg hel] at h ⊢
        omega

/-- `highlightNode` keeps the single-slot highlight invariant: a document
carrying the node-highlighted class at most once still carries it at most
once afterwards, for every argument combination. -/
theorem highlightNode_count_le_one (dia : Diagram) (nodeName : String)
    (highlighted rt : Bool) (h : highlightedCount dia ≤ 1) :
    highlightedCount (highlightNode dia nodeName highlighted rt) ≤ 1 := by
  simp only [highlightNode]
  by_cases hg : dia.dragging = true ∧ rt = true
  · rw [if_pos hg]; exact h
  · rw [if_neg hg]
    by_cases hb : highlighted = true
    · rw [if_pos hb, highlightedCount_fire]
      exact highlightedCount_setHighlighted _ _ (highlightedCount_clearFirst dia h)
    · rw [if_neg hb, highlightedCount_fire, highlightedCount_clearFirst dia h]
      omega

/-- C6 counterexample: the claim says mouseover on a node sets that node's
highlight. For a rendered node named "end" the d3 id selector resolves the
arrowhead marker (whose DOM id is "end") instead of the node's visual, so
hovering that node highlights the marker and leaves every node visual
unhighlighted — the `nodeHighlight` event still fires. -/
theorem highlightNode_end_highlights_marker :
    diagEnd.nodeVisuals.map (fun v => v.id) = ["end"] ∧
    (highlightNode diagEnd "end" true false).markerHighlighted = true ∧
    (highlightNode diagEnd "end" true false).nodeVisuals.filter
        (fun v => v.nodeHighlighted) = [] ∧
    (highlightNode diagEnd "end" true false).firedEvents =
      diagEnd.firedEvents ++ [Event.nodeHighlight "end" true] := by
  refine ⟨rfl, rfl, rfl, rfl⟩

/-- C6 (amended): at most one element carries the highlight at any time —
every `highlightNode` call preserves the single-slot bound — and on a
rendered widget with a clean highlight state, the dragging flag unset, and
node names other than the reserved marker id "end", hovering A marks
exactly A and fires `nodeHighlight(A, true)`; hovering B next clears A's
highlight and marks exactly B, firing `nodeHighlight(B, true)` (never two
simultaneously); and the mouseout on B clears the highlight and fires
`nodeHighlight(B, false)`. -/
theorem highlight_single_and_hover (dia0 : Diagram) (n0 : String) (b0 rt0 : Bool)
    (h0 : highlightedCount dia0 ≤ 1)
    (dia : Diagram) (nameA nameB : String) (rt1 rt2 rt3 : Bool)
    (hEl : dia.elMounted = true) (hMarkH : dia.markerHighlighted = false)
    (hDrag : dia.dragging = false) (hAlive : dia.observableAlive = true)
    (hAend : nameA ≠ "end") (hBend : nameB ≠ "end")
    (hclean : ∀ v ∈ dia.nodeVisuals, v.nodeHighlighted = false)
    (hfA : (dia.nodeVisuals.find? (fun v => v.id = nameA)).isSome = true)
    (hfB : (dia.nodeVisuals.find? (fun v => v.id = nameB)).isSome = true) :
    highlightedCount (highlightNode dia0 n0 b0 rt0) ≤ 1 ∧
    (((highlightNode dia nameA true rt1).nodeVisuals.filter
        (fun v => v.nodeHighlighted)).map (fun v => v.id) = [nameA] ∧
     (highlightNode dia nameA true rt1).firedEvents =
        dia.firedEvents ++ [Event.nodeHighlight nameA true] ∧
     ((highlightNode (highlightNode dia nameA true rt1) nameB true rt2).nodeVisuals.filter
        (fun v => v.nodeHighlighted)).map (fun v => v.id) = [nameB] ∧
     (highlightNode (highlightNode dia nameA true rt1) nameB true rt2).firedEvents =
        dia.firedEvents ++
          [Event.nodeHighlight nameA true, Event.nodeHighlight nameB true] ∧
     ((highlightNode (highlightNode (highlightNode dia nameA true rt1) nameB true rt2)
          nameB false rt3).nodeVisuals.filter
        (fun v => v.nodeHighlighted)).map (fun v => v.id) = [] ∧
     (highlightNode (highlightNode (highlightNode dia nameA true rt1) nameB true rt2)
          nameB false rt3).firedEvents =
        dia.firedEvents ++
          [Event.nodeHighlight nameA true, Event.nodeHighlight nameB true,
           Event.nodeHighlight nameB false]) := by
  refine ⟨highlightNode_count_le_one dia0 n0 b0 rt0 h0, ?_⟩
  obtain ⟨vA, hvA⟩ := Option.isSome_iff_exists.mp hfA
  have hidA : vA.id = nameA := by simpa using List.find?_some hvA
  have hfB2 : ((markHighlightedById dia.nodeVisuals nameA).find?
      (fun v => v.id = nameB)).isSome = true := by
    rw [find?_isSome_markHighlightedById]; exact hfB
  obtain ⟨vB, hvB⟩ := Option.isSome_iff_exists.mp hfB2
  have hidB : vB.id = nameB := by simpa using List.find?_some hvB
  have hfiltA : ((markHighlightedById dia.nodeVisuals nameA).filter
      (fun v => v.nodeHighlighted)).map (fun v => v.id) = [nameA] := by
    rw [highlighted_ids_markHighlightedById _ _ hclean, if_pos hfA]
  have hfiltB : ((markHighlightedById dia.nodeVisuals nameB).filter
      (fun v => v.nodeHighlighted)).map (fun v => v.id) = [nameB] := by
    rw [highlighted_ids_markHighlightedById _ _ hclean, if_pos hfB]
  have hfilt0 : dia.nodeVisuals.filter (fun v => v.nodeHighlighted) = [] :=
    List.filter_eq_nil_iff.mpr (fun w hw => by simp [hclean w hw])
  obtain ⟨gc, cont, svgM, grpM, mkM, mkS, mkH, elM, nds, eds, nvs, evs,
    ew, eh, sw, sh, sel, drag, mbb, alive, fev⟩ := dia
  dsimp only at hvA hvB hclean hfiltA hfiltB hfilt0 hEl hMarkH hDrag hAlive
  subst hEl
  subst hMarkH
  subst hDrag
  subst hAlive
  have hd1 : highlightNode
      ⟨gc, cont, svgM, grpM, mkM, mkS, false, true, nds, eds, nvs, evs,
        ew, eh, sw, sh, sel, false, mbb, true, fev⟩ nameA true rt1 =
      ⟨gc, cont, svgM, grpM, mkM, mkS, false, true, nds, eds,
        markHighlightedById nvs nameA, evs, ew, eh, sw, sh, sel, false, mbb, true,
        fev ++ [Event.nodeHighlight nameA true]⟩ := by
    simp [highlightNode, getElementById, hAend, hvA, clearFirstHighlighted,
      clearFirstHighlightedVisuals_of_clean _ hclean, setHighlightedOn, hidA, fire]
  have hd2 : highlightNode
      ⟨gc, cont, svgM, grpM, mkM, mkS, false, true, nds, eds,
        markHighlightedById nvs nameA, evs, ew, eh, sw, sh, sel, false, mbb, true,
        fev ++ [Event.nodeHighlight nameA true]⟩ nameB true rt2 =
      ⟨gc, cont, svgM, grpM, mkM, mkS, false, true, nds, eds,
        markHighlightedById nvs nameB, evs, ew, eh, sw, sh, sel, false, mbb, true,
        fev ++ [Event.nodeHighlight nameA true, Event.nodeHighlight nameB true]⟩ := by
    simp [highlightNode, getElementById, hBend, hvB, clearFirstHighlighted,
      clearFirst_markHighlighted_of_clean _ _ hclean, setHighlightedOn, hidB, fire]
  have hd3 : highlightNode
      ⟨gc, cont, svgM, grpM, mkM, mkS, false, true, nds, eds,
        markHighlightedById nvs nameB, evs, ew, eh, sw, sh, sel, false, mbb, true,
        fev ++ [Event.nodeHighlight nameA true, Event.nodeHighlight nameB true]⟩
        nameB false rt3 =
      ⟨gc, cont, svgM, grpM, mkM, mkS, false, true, nds, eds, nvs, evs,
        ew, eh, sw, sh, sel, false, mbb, true,
        fev ++ [Event.nodeHighlight nameA true, Event.nodeHighlight nameB true,
          Event.nodeHighlight nameB false]⟩ := by
    simp [highlightNode, getElementById, hBend, clearFirstHighlighted,
      clearFirst_markHighlighted_of_clean _ _ hclean, fire]
  rw [hd1, hd2, hd3]
  refine ⟨?_, rfl, ?_, rfl, ?_, rfl⟩
  · exact hfiltA
  · exact hfiltB
  · rw [hfilt0]; rfl

/-- Witness for C6 on the concrete rendered two-node diagram. -/
theorem highlight_single_and_hover_witness :
    highlightedCount (highlightNode {} "A" true false) ≤ 1 ∧
    (((highlightNode diagAB "A" true false).nodeVisuals.filter
        (fun v => v.nodeHighlighted)).map (fun v => v.id) = ["A"] ∧
     (highlightNode diagAB "A" true false).firedEvents =
        diagAB.firedEvents ++ [Event.nodeHighlight "A" true] ∧
     ((highlightNode (highlightNode diagAB "A" true false) "B" true false).nodeVisuals.filter
        (fun v => v.nodeHighlighted)).map (fun v => v.id) = ["B"] ∧
     (highlightNode (highlightNode diagAB "A" true false) "B" true false).firedEvents =
        diagAB.firedEvents ++
          [Event.nodeHighlight "A" true, Event.nodeHighlight "B" true] ∧
     ((highlightNode (highlightNode (highlightNode diagAB "A" true false) "B" true false)
          "B" false false).nodeVisuals.filter
        (fun v => v.nodeHighlighted)).map (fun v => v.id) = [] ∧
     (highlightNode (highlightNode (highlightNode diagAB "A" true false) "B" true false)
          "B" false false).firedEvents =
        diagAB.firedEvents ++
          [Event.nodeHighlight "A" true, Event.nodeHighlight "B" true,
           Event.nodeHighlight "B" false]) :=
  highlight_single_and_hover {} "A" true false (by decide) diagAB "A" "B"
    false false false rfl rfl rfl rfl (by decide) (by decide) (by decide)
    (by decide) (by decide)

end CleverDiagram
